import Mathlib

/-
  Formal model of the core ingestion/query pipeline of
  aftabjack/options-simple-ws-bybit.

  Shallow embedding conventions:
  * Python floats are modelled as rationals (ℚ).  The tracker stringifies
    every stored numeric value with str() and the readers parse it back with
    float(); CPython guarantees float(str(x)) == x, so a value that was
    written by the tracker is modelled as carrying its rational directly
    (WireVal.num), while arbitrary stored text (corruption, foreign writers)
    is modelled as WireVal.raw and goes through the decimal parser.
  * Python exceptions are modelled with Except; a try/except that returns a
    default is modelled by matching on the Except value.
  * Redis commands issued by a code path are reified as lists of command
    values (Cmd / ReadOp) so that theorems can speak about exactly which
    writes and scans a call performs.
-/

/-- A Python value as it can reach the numeric conversion helper
`_to_float` in bybit_options_optimized.py: None, a string, a number
(int/float, merged since both convert losslessly), or any other object
(for which float() raises TypeError). -/
inductive PyVal where
  | none
  | str (s : String)
  | num (q : ℚ)
  | other
  deriving DecidableEq, Repr

/-- The two Python exception classes caught in `_to_float`. -/
inductive PyErr where
  | valueError
  | typeError
  deriving DecidableEq, Repr

/-- Value of a decimal digit list, most significant first. -/
def digitsVal (cs : List Char) : ℕ :=
  cs.foldl (fun a c => a * 10 + (c.toNat - 48)) 0

/-- Parse an unsigned decimal literal (digits, optional point, digits),
mirroring the forms `12`, `12.`, `.5`, `12.5` accepted by Python float().
(The model covers the plain decimal fragment of the float() grammar;
exponents and inf/nan never occur in this repository's data.) -/
def parseUnsigned (cs : List Char) : Option ℚ :=
  let intPart := cs.takeWhile Char.isDigit
  let rest := cs.dropWhile Char.isDigit
  match rest with
  | [] => if intPart.isEmpty then Option.none else some (digitsVal intPart : ℚ)
  | c :: frac =>
    if c = '.' then
      if intPart.isEmpty ∧ frac.isEmpty then Option.none
      else if frac.all Char.isDigit then
        some ((digitsVal intPart : ℚ) + (digitsVal frac : ℚ) / (10 ^ frac.length))
      else Option.none
    else Option.none

/-- Strip leading and trailing whitespace from a character list (the
whitespace stripping float()/int() perform on their string argument). -/
def trimChars (cs : List Char) : List Char :=
  ((cs.dropWhile Char.isWhitespace).reverse.dropWhile Char.isWhitespace).reverse

/-- Python float(string): optional sign then an unsigned literal;
surrounding whitespace is stripped by float(). -/
def parseFloat (s : String) : Option ℚ :=
  match trimChars s.data with
  | '-' :: rest => (parseUnsigned rest).map (fun q => -q)
  | '+' :: rest => parseUnsigned rest
  | cs => parseUnsigned cs

/-- Python int(string): optional sign then digits only (int() rejects a
decimal point). -/
def parseInt (s : String) : Option ℤ :=
  let core : List Char → Option ℤ := fun cs =>
    if cs.isEmpty ∨ ¬ cs.all Char.isDigit then Option.none
    else some (digitsVal cs : ℤ)
  match trimChars s.data with
  | '-' :: rest => (core rest).map (fun n => -n)
  | '+' :: rest => core rest
  | cs => core cs

/-- The Python builtin float() applied to a value: raises TypeError on None
and non-numeric objects, ValueError on unparseable strings. -/
def pyFloat : PyVal → Except PyErr ℚ
  | PyVal.none => Except.error PyErr.typeError
  | PyVal.str s =>
      match parseFloat s with
      | some q => Except.ok q
      | Option.none => Except.error PyErr.valueError
  | PyVal.num q => Except.ok q
  | PyVal.other => Except.error PyErr.typeError

/-- Python `value == ''`: true only for the empty string (comparison of a
string with None or a number is False, never an error). -/
def eqEmptyStr : PyVal → Bool
  | PyVal.str s => s = ""
  | _ => false

/-- `OptimizedOptionsTracker._to_float` (bybit_options_optimized.py
lines 362-369): returns None for None or the empty string, otherwise
float(value), catching ValueError/TypeError as None. -/
def to_float (v : PyVal) : Option ℚ :=
  if v = PyVal.none ∨ eqEmptyStr v then Option.none
  else
    match pyFloat v with
    | Except.ok q => some q
    | Except.error _ => Option.none

/-- One value stored in a Redis hash field.  The tracker writes str(v) of a
float or int, which float()/int() recover exactly, so such a value is
modelled by the rational itself (num).  raw covers arbitrary stored text,
written by anything else, which has to go through the string parsers. -/
inductive WireVal where
  | num (q : ℚ)
  | raw (s : String)
  deriving DecidableEq, Repr

/-- A stored Redis hash, as returned by hgetall (order of fields as stored;
the empty list is the empty dict an hgetall of a missing key yields). -/
abbrev Hash := List (String × WireVal)

/-- Python float() applied to a stored hash value. -/
def floatOfWire : WireVal → Except PyErr ℚ
  | WireVal.num q => Except.ok q
  | WireVal.raw s =>
      match parseFloat s with
      | some q => Except.ok q
      | Option.none => Except.error PyErr.valueError

/-- Python int() applied to a stored hash value.  A num carrying a
non-integral rational cannot arise in an int position (the tracker writes
ts as an integer and the missing-key default is the int 0), so the model
rejects it like int() rejects a fractional literal. -/
def intOfWire : WireVal → Except PyErr ℤ
  | WireVal.num q => if q.den = 1 then Except.ok q.num else Except.error PyErr.valueError
  | WireVal.raw s =>
      match parseInt s with
      | some n => Except.ok n
      | Option.none => Except.error PyErr.valueError

/-- Python truthiness of a value obtained from data.get(k) when the key is
present: a stored numeric string is nonempty hence truthy; raw text is
truthy iff nonempty. -/
def wireTruthy : WireVal → Bool
  | WireVal.num _ => true
  | WireVal.raw s => !(s = "")

/-- data.get(k, default 0) on a stored hash: the field value when present,
the int 0 otherwise. -/
def hgetD (h : Hash) (k : String) : WireVal :=
  (h.lookup k).getD (WireVal.num 0)

/-- The record built in handle_message (bybit_options_optimized.py lines
309-325) before None-stripping: a capture timestamp plus the fourteen
optional numeric fields, under their abbreviated storage keys. -/
structure QuoteRecord where
  ts : ℤ
  biv : Option ℚ
  aiv : Option ℚ
  lp : Option ℚ
  mp : Option ℚ
  ip : Option ℚ
  miv : Option ℚ
  up : Option ℚ
  oi : Option ℚ
  d : Option ℚ
  g : Option ℚ
  v : Option ℚ
  t : Option ℚ
  v24 : Option ℚ
  t24 : Option ℚ
  deriving DecidableEq, Repr

/-- The optional fields of a record in the dict insertion order of
handle_message, paired with their abbreviated keys. -/
def fieldList (r : QuoteRecord) : List (String × Option ℚ) :=
  [("biv", r.biv), ("aiv", r.aiv), ("lp", r.lp), ("mp", r.mp),
   ("ip", r.ip), ("miv", r.miv), ("up", r.up), ("oi", r.oi),
   ("d", r.d), ("g", r.g), ("v", r.v), ("t", r.t),
   ("v24", r.v24), ("t24", r.t24)]

/-- The None-stripping comprehension of handle_message line 328:
absent (None) fields are omitted entirely, present ones stringified. -/
def stripNone (l : List (String × Option ℚ)) : Hash :=
  l.filterMap (fun p => p.2.map (fun q => (p.1, WireVal.num q)))

/-- encode: the wire map enqueued for one record - the ts field (always
present, an int) followed by exactly the present optional fields
(handle_message lines 309-328). -/
def encode (r : QuoteRecord) : Hash :=
  ("ts", WireVal.num (r.ts : ℚ)) :: stripNone (fieldList r)

/-- The dict returned by OptionsDataReader.get_option (data_reader.py
lines 63-80): every numeric field is a plain number, absent stored fields
having been read with the documented default 0. -/
structure OptionView where
  symbol : String
  timestamp : ℤ
  bid_iv : ℚ
  ask_iv : ℚ
  last_price : ℚ
  mark_price : ℚ
  index_price : ℚ
  mark_iv : ℚ
  underlying_price : ℚ
  open_interest : ℚ
  delta : ℚ
  gamma : ℚ
  vega : ℚ
  theta : ℚ
  volume_24h : ℚ
  turnover_24h : ℚ
  deriving DecidableEq, Repr

/-- The body of get_option's dict construction: each field conversion can
raise (float/int on a stored string); the first failure aborts the whole
construction, modelled by Except bind. -/
def decodeCore (sym : String) (h : Hash) : Except PyErr OptionView :=
  (intOfWire (hgetD h "ts")).bind fun ts =>
  (floatOfWire (hgetD h "biv")).bind fun biv =>
  (floatOfWire (hgetD h "aiv")).bind fun aiv =>
  (floatOfWire (hgetD h "lp")).bind fun lp =>
  (floatOfWire (hgetD h "mp")).bind fun mp =>
  (floatOfWire (hgetD h "ip")).bind fun ip =>
  (floatOfWire (hgetD h "miv")).bind fun miv =>
  (floatOfWire (hgetD h "up")).bind fun up =>
  (floatOfWire (hgetD h "oi")).bind fun oi =>
  (floatOfWire (hgetD h "d")).bind fun d =>
  (floatOfWire (hgetD h "g")).bind fun g =>
  (floatOfWire (hgetD h "v")).bind fun v =>
  (floatOfWire (hgetD h "t")).bind fun t =>
  (floatOfWire (hgetD h "v24")).bind fun v24 =>
  (floatOfWire (hgetD h "t24")).bind fun t24 =>
  Except.ok
    { symbol := sym, timestamp := ts, bid_iv := biv, ask_iv := aiv,
      last_price := lp, mark_price := mp, index_price := ip, mark_iv := miv,
      underlying_price := up, open_interest := oi, delta := d, gamma := g,
      vega := v, theta := t, volume_24h := v24, turnover_24h := t24 }

/-- OptionsDataReader.get_option (data_reader.py lines 57-84): hgetall the
key; an empty reply (missing key) falls through to return None; any
conversion error is caught by the enclosing except and also yields None
for the whole record. -/
def get_option (sym : String) (h : Hash) : Option OptionView :=
  if h.isEmpty then Option.none
  else
    match decodeCore sym h with
    | Except.ok view => some view
    | Except.error _ => Option.none

/-- The dict built per key inside get_all_options (data_reader.py lines
105-116): a reduced field set, each optional field read as
float(value) if the stored value is truthy, else 0. -/
structure ScanView where
  symbol : String
  timestamp : ℤ
  bid_iv : ℚ
  ask_iv : ℚ
  last_price : ℚ
  mark_price : ℚ
  mark_iv : ℚ
  open_interest : ℚ
  volume_24h : ℚ
  turnover_24h : ℚ
  deriving DecidableEq, Repr

/-- The pattern `float(data.get(k, 0)) if data.get(k) else 0` of
get_all_options: missing or falsy value reads as 0 without calling
float(); a present truthy value goes through float() and can raise. -/
def condFloat (h : Hash) (k : String) : Except PyErr ℚ :=
  match h.lookup k with
  | Option.none => Except.ok 0
  | some w => if wireTruthy w then floatOfWire w else Except.ok 0

/-- Python str.replace(pattern, empty) specialised to the pattern
`option:` - removes every (non-overlapping, leftmost-first) occurrence,
exactly like key.replace in data_reader.py line 104. -/
def dropOptionTag : List Char → List Char
  | 'o' :: 'p' :: 't' :: 'i' :: 'o' :: 'n' :: ':' :: rest => dropOptionTag rest
  | c :: rest => c :: dropOptionTag rest
  | [] => []

/-- The symbol recovered from a storage key by get_all_options. -/
def symbolOfKey (k : String) : String :=
  String.mk (dropOptionTag k.data)

/-- One entry of get_all_options' loop body: decode the reduced field set;
any float()/int() failure raises out of the whole loop. -/
def scanDecode (key : String) (h : Hash) : Except PyErr ScanView :=
  (intOfWire (hgetD h "ts")).bind fun ts =>
  (condFloat h "biv").bind fun biv =>
  (condFloat h "aiv").bind fun aiv =>
  (condFloat h "lp").bind fun lp =>
  (condFloat h "mp").bind fun mp =>
  (condFloat h "miv").bind fun miv =>
  (condFloat h "oi").bind fun oi =>
  (condFloat h "v24").bind fun v24 =>
  (condFloat h "t24").bind fun t24 =>
  Except.ok
    { symbol := symbolOfKey key, timestamp := ts, bid_iv := biv,
      ask_iv := aiv, last_price := lp, mark_price := mp, mark_iv := miv,
      open_interest := oi, volume_24h := v24, turnover_24h := t24 }

/-- The for-loop of get_all_options over the (key, hgetall-reply) pairs:
entries with an empty reply are skipped; the first conversion error
escapes the loop. -/
def scanLoopDecode : List (String × Hash) → Except PyErr (List ScanView)
  | [] => Except.ok []
  | (key, h) :: rest =>
      if h.isEmpty then scanLoopDecode rest
      else
        (scanDecode key h).bind fun view =>
        (scanLoopDecode rest).map fun views => view :: views

/-- OptionsDataReader.get_all_options (data_reader.py lines 86-123),
given the store's reply to the KEYS pattern as the list of (key, hash)
pairs: the whole loop runs under one try, whose except returns the empty
list, discarding every already-decoded entry. -/
def get_all_options (entries : List (String × Hash)) : List ScanView :=
  match scanLoopDecode entries with
  | Except.ok views => views
  | Except.error _ => []

/-- One pending entry of the batch queue: the symbol and the encoded
record, as appended by handle_message lines 331-335. -/
structure BatchItem where
  symbol : String
  data : Hash
  deriving DecidableEq, Repr

/-- A Redis write command issued through the client or a pipeline. -/
inductive Cmd where
  | hsetMap (key : String) (fields : Hash)
  | hsetField (key : String) (field : String) (value : ℚ)
  | expire (key : String) (ttl : ℕ)
  | hincrby (key : String) (field : String) (amount : ℕ)
  deriving DecidableEq, Repr

/-- The fixed drain bound: self.batch_size = 200
(bybit_options_optimized.py line 67). -/
def batch_size : ℕ := 200

/-- The fixed queue capacity: deque(maxlen=10000)
(bybit_options_optimized.py line 69). -/
def bufferCap : ℕ := 10000

/-- The pipelined commands for one drained item (batch_processor lines
268-274): one hset of the encoded fields under option:symbol and one
TTL refresh of 86400 seconds on the same key. -/
def itemCmds (it : BatchItem) : List Cmd :=
  [Cmd.hsetMap ("option:" ++ it.symbol) it.data,
   Cmd.expire ("option:" ++ it.symbol) 86400]

/-- One iteration of batch_processor's loop (bybit_options_optimized.py
lines 252-287) after the sleep, with `now` the wall clock at the stats
write: an empty queue is skipped entirely; otherwise min(len, batch_size)
items are popped from the front, each contributing its hset and expire,
followed by the stats update (message counter by batch length, last_update
timestamp, batch counter by one).  Returns the pipelined command list and
the queue left behind. -/
def flushTick (queue : List BatchItem) (now : ℚ) : List Cmd × List BatchItem :=
  if queue.isEmpty then ([], queue)
  else
    let n := min queue.length batch_size
    let batch := queue.take n
    let rest := queue.drop n
    (batch.flatMap itemCmds ++
      [Cmd.hincrby "stats" "messages" batch.length,
       Cmd.hsetField "stats" "last_update" now,
       Cmd.hincrby "stats" "batches" 1],
     rest)

/-- self.batch_queue.append on a deque with maxlen 10000: at capacity the
deque first discards its leftmost (oldest) element, then appends; the
caller is never blocked and never receives an error. -/
def enqueue (q : List BatchItem) (x : BatchItem) : List BatchItem :=
  if q.length = bufferCap then q.tail ++ [x] else q ++ [x]

/-- OptimizedOptionsTracker.cleanup (bybit_options_optimized.py lines
526-560): reads the number of remaining queued items (used only in a log
line), writes the three final stats fields (shutdown_time,
total_messages, avg_msg_rate), and reports whether the WebSocket gets
closed.  The queue is returned unchanged: no remaining item is written. -/
def cleanup (queue : List BatchItem) (messages : ℕ) (now runtime : ℚ)
    (hasWs : Bool) : List Cmd × List BatchItem × Bool :=
  let avg : ℚ := if 0 < runtime then (messages : ℚ) / runtime else 0
  ([Cmd.hsetField "stats" "shutdown_time" now,
    Cmd.hsetField "stats" "total_messages" (messages : ℚ),
    Cmd.hsetField "stats" "avg_msg_rate" avg],
   queue, hasWs)

/-- The retry ceiling: self.ws_max_reconnect_attempts = 10
(bybit_options_optimized.py line 77). -/
def ws_max_reconnect_attempts : ℕ := 10

/-- The chunking of subscribe_symbols line 388: slices of 100 symbols in
order; the Python slice loop yields nothing for an empty symbol list. -/
def chunksOf (n : ℕ) (l : List α) : List (List α) :=
  if l.isEmpty ∨ n = 0 then []
  else l.take n :: chunksOf n (l.drop n)
termination_by l.length
decreasing_by
  rename_i h
  rw [List.length_drop]
  rcases not_or.mp h with ⟨h1, h2⟩
  have hl : 0 < l.length := by
    cases l with
    | nil => simp at h1
    | cons a t => simp
  exact Nat.sub_lt hl (Nat.pos_of_ne_zero h2)

/-- Externally visible steps of the subscription code paths. -/
inductive SubAction where
  | connectWs
  | subscribeAttempt (chunk : List String)
  | pace
  | sleepRetry
  | wsExit
  | backoff (delay : ℕ)
  deriving DecidableEq, Repr

/-- Outcome of one run of subscribe_symbols' chunk loop. -/
inductive PassResult where
  | reconnect (cnt : ℕ)
  | completed
  deriving DecidableEq, Repr

/-- The chunk loop of subscribe_symbols (bybit_options_optimized.py lines
393-409), with `fail i` telling whether the ticker_stream call for chunk i
raises.  A successful chunk is followed by the 0.1s pacing sleep.  A
failing chunk increments the reconnect counter; while the incremented
counter is still below the ceiling the loop sleeps ws_reconnect_delay and
returns to reconnect; otherwise the loop simply continues with the next
chunk.  Falling off the end of the loop resets the counter
(modelled by PassResult.completed; line 411). -/
def passGo (fail : ℕ → Bool) : List (List String) → ℕ → ℕ → PassResult × List SubAction
  | [], _, _ => (PassResult.completed, [])
  | c :: rest, idx, count =>
      if fail idx then
        let cnt := count + 1
        if cnt < ws_max_reconnect_attempts then
          (PassResult.reconnect cnt, [SubAction.subscribeAttempt c, SubAction.sleepRetry])
        else
          let next := passGo fail rest (idx + 1) cnt
          (next.1, SubAction.subscribeAttempt c :: next.2)
      else
        let next := passGo fail rest (idx + 1) count
        (next.1, SubAction.subscribeAttempt c :: SubAction.pace :: next.2)

/-- A pass only asks for a reconnect with a counter that grew and is still
below the ceiling (by the guard on line 406). -/
theorem passGo_reconnect_bounds (fail : ℕ → Bool) (chunks : List (List String))
    (idx count cnt : ℕ)
    (h : (passGo fail chunks idx count).1 = PassResult.reconnect cnt) :
    count < cnt ∧ cnt < ws_max_reconnect_attempts := by
  induction chunks generalizing idx count with
  | nil => simp [passGo] at h
  | cons c rest ih =>
    rw [passGo] at h
    by_cases hf : fail idx = true
    · simp only [hf, if_true] at h
      by_cases hc : count + 1 < ws_max_reconnect_attempts
      · simp only [hc, if_true] at h
        cases h
        omega
      · simp only [hc, if_false] at h
        have := ih (idx + 1) (count + 1) h
        omega
    · simp only [eq_false_of_ne_true hf, if_false] at h
      exact ih (idx + 1) count h

/-- subscribe_symbols together with the reconnect_websocket recursion
(bybit_options_optimized.py lines 371-430): creates the WebSocket, runs
the chunk loop over chunks of 100, and on an early reconnect request
closes the socket, sleeps the exponential backoff min(10 * 2^count, 60)
and re-subscribes to the full active symbol list.  `fails pass i` tells
whether chunk i of re-subscription round `pass` raises.  Returns the
final reconnect counter and the emitted actions. -/
def subscribeRun (fails : ℕ → ℕ → Bool) (symbols : List String)
    (pass count : ℕ) : ℕ × List SubAction :=
  let p := passGo (fails pass) (chunksOf 100 symbols) 0 count
  match hres : p.1 with
  | PassResult.completed => (0, SubAction.connectWs :: p.2)
  | PassResult.reconnect cnt =>
      let next := subscribeRun fails symbols (pass + 1) cnt
      (next.1,
       SubAction.connectWs :: p.2 ++
         (SubAction.wsExit :: SubAction.backoff (min (10 * 2 ^ cnt) 60) :: next.2))
termination_by ws_max_reconnect_attempts - count
decreasing_by
  have hb := passGo_reconnect_bounds (fails pass) (chunksOf 100 symbols) 0 count cnt hres
  omega

/-- reconnect_websocket (bybit_options_optimized.py lines 414-430): closes
the socket if present, sleeps the backoff for the current counter, then
calls subscribe_symbols on list(self.active_symbols) - the full
previously-active symbol set kept in the tracker state. -/
def reconnectWebsocket (fails : ℕ → ℕ → Bool) (active : List String)
    (count : ℕ) : ℕ × List SubAction :=
  let run := subscribeRun fails active 0 count
  (run.1,
   SubAction.wsExit :: SubAction.backoff (min (10 * 2 ^ count) 60) :: run.2)

/-- One iteration of track's liveness loop (bybit_options_optimized.py
lines 513-521): whenever a WebSocket exists and reports not connected,
reconnect_websocket is invoked - with no check of the reconnect counter. -/
def healthCheck (fails : ℕ → ℕ → Bool) (active : List String) (count : ℕ)
    (hasWs isConnected : Bool) : ℕ × List SubAction :=
  if hasWs && !isConnected then reconnectWebsocket fails active count
  else (count, [])

/-- The symbols handed to ticker_stream across a list of actions. -/
def attemptedSymbols (acts : List SubAction) : List String :=
  acts.flatMap fun a =>
    match a with
    | SubAction.subscribeAttempt c => c
    | _ => []

/-- A read-side Redis command, as issued by the query layer and the signal
scanner.  keysEnum is the blocking KEYS command: one unbounded
enumeration of every key matching the pattern; scanStep is one bounded
cursor step of SCAN. -/
inductive ReadOp where
  | keysEnum (pattern : String)
  | scanStep (cursor : ℕ) (pattern : String) (count : ℕ)
  | hgetallOp (key : String)
  | hmgetOp (key : String) (fields : List String)
  | dbsizeOp
  | infoOp (sect : String)
  deriving DecidableEq, Repr

/-- The store commands of OptionsDataReader.get_all_options (data_reader.py
lines 86-100): one KEYS enumeration of the pattern (asset-prefixed when an
asset filter is given), then one pipelined hgetall per returned key. -/
def get_all_options_ops (asset : Option String) (keysReply : List String) :
    List ReadOp :=
  (match asset with
   | some a => ReadOp.keysEnum ("option:" ++ a ++ "-*")
   | Option.none => ReadOp.keysEnum "option:*") ::
  keysReply.map ReadOp.hgetallOp

/-- The store commands of OptionsDataReader.get_stats (data_reader.py
lines 35-53): the stats hash, the key count and the memory info. -/
def get_stats_ops : List ReadOp :=
  [ReadOp.hgetallOp "stats", ReadOp.dbsizeOp, ReadOp.infoOp "memory"]

/-- The store commands of OptionsDataReader.get_summary (data_reader.py
lines 161-181): three per-asset KEYS enumerations followed by get_stats. -/
def get_summary_ops : List ReadOp :=
  [ReadOp.keysEnum "option:BTC-*", ReadOp.keysEnum "option:ETH-*",
   ReadOp.keysEnum "option:SOL-*"] ++ get_stats_ops

/-- The store commands of EfficientTradeExecutor.scan_high_iv_opportunities
(efficient_trade_executor.py lines 157-196): a cursor loop that issues one
SCAN step per round (match option:*, count 100) and pipelined hmgets for
the returned keys, stopping when the reply cursor is 0.  `pages` is the
sequence of (next cursor, keys) replies the store produces; an exhausted
reply list stands for the terminating (0, empty) reply. -/
def scan_high_iv_ops : List (ℕ × List String) → ℕ → List ReadOp
  | [], c => [ReadOp.scanStep c "option:*" 100]
  | (next, keys) :: rest, c =>
      ReadOp.scanStep c "option:*" 100 ::
      (keys.map (fun k => ReadOp.hmgetOp k ["miv", "lp", "v24"]) ++
       (if next = 0 then [] else scan_high_iv_ops rest next))

/-- The symbol cache file as load_cache can encounter it: absent,
unreadable (open/json.load/fromisoformat raises, including a missing
field), or readable with its updated_at/expires_at timestamps (seconds),
count and symbol list. -/
inductive CacheFile where
  | missing
  | unreadable
  | found (updated_at expires_at : ℤ) (count : ℕ) (symbols : List String)
  deriving DecidableEq, Repr

/-- OptimizedOptionsTracker.load_cache (bybit_options_optimized.py lines
97-122) at current time `now`: None for a missing file, None when reading
raises, None when now > expires_at (line 113), the cached symbols
otherwise. -/
def load_cache (now : ℤ) : CacheFile → Option (List String)
  | CacheFile.missing => Option.none
  | CacheFile.unreadable => Option.none
  | CacheFile.found _ e _ syms =>
      if e < now then Option.none else some syms

/-- A quote record carrying only the (always present) timestamp: every
optional numeric field absent. -/
def sampleAbsent : QuoteRecord :=
  { ts := 5, biv := Option.none, aiv := Option.none, lp := Option.none,
    mp := Option.none, ip := Option.none, miv := Option.none,
    up := Option.none, oi := Option.none, d := Option.none, g := Option.none,
    v := Option.none, t := Option.none, v24 := Option.none, t24 := Option.none }

/-- A stored hash whose lp field holds text that float() cannot parse. -/
def badHash : Hash := [("ts", WireVal.num 1), ("lp", WireVal.raw "abc")]

/-- A stored hash that decodes cleanly. -/
def goodHash : Hash := [("ts", WireVal.num 1), ("lp", WireVal.num 2)]

/-- Whether a write command is a single-field hset on the stats key. -/
def isStatsFieldWrite : Cmd → Bool
  | Cmd.hsetField k _ _ => k == "stats"
  | _ => false

/-- Whether a write command touches a per-instrument option key (an hset
of record fields or a TTL refresh). -/
def isOptionKeyWrite : Cmd → Bool
  | Cmd.hsetMap _ _ => true
  | Cmd.expire _ _ => true
  | _ => false

/-- Whether a read command is the unbounded KEYS enumeration. -/
def isKeysEnum : ReadOp → Bool
  | ReadOp.keysEnum _ => true
  | _ => false

theorem stripNone_cons_none (a : String) (rest : List (String × Option ℚ)) :
    stripNone ((a, Option.none) :: rest) = stripNone rest := rfl

theorem stripNone_cons_some (a : String) (q : ℚ)
    (rest : List (String × Option ℚ)) :
    stripNone ((a, some q) :: rest) = (a, WireVal.num q) :: stripNone rest := rfl

theorem lookup_stripNone_of_not_mem (l : List (String × Option ℚ)) (k : String)
    (h : k ∉ l.map Prod.fst) : (stripNone l).lookup k = Option.none := by
  induction l with
  | nil => rfl
  | cons p rest ih =>
    obtain ⟨a, o⟩ := p
    simp only [List.map_cons, List.mem_cons, not_or] at h
    obtain ⟨hk, hrest⟩ := h
    cases o with
    | none => rw [stripNone_cons_none]; exact ih hrest
    | some q =>
      rw [stripNone_cons_some]
      have hb : (k == a) = false := beq_eq_false_iff_ne.mpr hk
      simp [List.lookup, hb, ih hrest]

theorem lookup_stripNone (l : List (String × Option ℚ)) (k : String)
    (hnd : (l.map Prod.fst).Nodup) :
    (stripNone l).lookup k = (l.lookup k).bind (fun o => o.map WireVal.num) := by
  induction l with
  | nil => rfl
  | cons p rest ih =>
    obtain ⟨a, o⟩ := p
    simp only [List.map_cons, List.nodup_cons] at hnd
    obtain ⟨ha, hrest⟩ := hnd
    by_cases hk : k = a
    · subst hk
      cases o with
      | none =>
        rw [stripNone_cons_none]
        simp [List.lookup, lookup_stripNone_of_not_mem rest k ha]
      | some q =>
        rw [stripNone_cons_some]
        simp [List.lookup]
    · have hb : (k == a) = false := beq_eq_false_iff_ne.mpr hk
      cases o with
      | none =>
        rw [stripNone_cons_none]
        simp [List.lookup, hb, ih hrest]
      | some q =>
        rw [stripNone_cons_some]
        simp [List.lookup, hb, ih hrest]

theorem floatOfWire_mapNum (o : Option ℚ) :
    floatOfWire ((o.map WireVal.num).getD (WireVal.num 0)) =
      Except.ok (o.getD 0) := by
  cases o <;> rfl

theorem fieldList_keys (r : QuoteRecord) :
    (fieldList r).map Prod.fst =
      ["biv", "aiv", "lp", "mp", "ip", "miv", "up", "oi",
       "d", "g", "v", "t", "v24", "t24"] := rfl

theorem fieldList_keys_nodup (r : QuoteRecord) :
    ((fieldList r).map Prod.fst).Nodup := by
  rw [fieldList_keys]
  decide

theorem hgetD_encode_ts (r : QuoteRecord) :
    hgetD (encode r) "ts" = WireVal.num (r.ts : ℚ) := rfl

theorem hgetD_encode (r : QuoteRecord) (k : String) (o : Option ℚ)
    (hk : (k == "ts") = false) (hl : (fieldList r).lookup k = some o) :
    hgetD (encode r) k = (o.map WireVal.num).getD (WireVal.num 0) := by
  unfold hgetD encode
  simp only [List.lookup, hk]
  rw [lookup_stripNone (fieldList r) k (fieldList_keys_nodup r), hl]
  cases o <;> rfl

theorem except_ok_bind {ε α β : Type} (x : α) (f : α → Except ε β) :
    (Except.ok x).bind f = f x := rfl

theorem decodeCore_encode (sym : String) (r : QuoteRecord) :
    decodeCore sym (encode r) =
      Except.ok
        { symbol := sym, timestamp := r.ts,
          bid_iv := r.biv.getD 0, ask_iv := r.aiv.getD 0,
          last_price := r.lp.getD 0, mark_price := r.mp.getD 0,
          index_price := r.ip.getD 0, mark_iv := r.miv.getD 0,
          underlying_price := r.up.getD 0, open_interest := r.oi.getD 0,
          delta := r.d.getD 0, gamma := r.g.getD 0, vega := r.v.getD 0,
          theta := r.t.getD 0, volume_24h := r.v24.getD 0,
          turnover_24h := r.t24.getD 0 } := by
  unfold decodeCore
  rw [hgetD_encode_ts r,
    hgetD_encode r "biv" r.biv rfl rfl,
    hgetD_encode r "aiv" r.aiv rfl rfl,
    hgetD_encode r "lp" r.lp rfl rfl,
    hgetD_encode r "mp" r.mp rfl rfl,
    hgetD_encode r "ip" r.ip rfl rfl,
    hgetD_encode r "miv" r.miv rfl rfl,
    hgetD_encode r "up" r.up rfl rfl,
    hgetD_encode r "oi" r.oi rfl rfl,
    hgetD_encode r "d" r.d rfl rfl,
    hgetD_encode r "g" r.g rfl rfl,
    hgetD_encode r "v" r.v rfl rfl,
    hgetD_encode r "t" r.t rfl rfl,
    hgetD_encode r "v24" r.v24 rfl rfl,
    hgetD_encode r "t24" r.t24 rfl rfl]
  simp only [floatOfWire_mapNum, intOfWire, Rat.den_intCast, Rat.num_intCast,
    if_true, except_ok_bind]

/-- Claim C3, counterexample: for the record sampleAbsent in which bid IV
is absent, encode omits the biv field (first conjunct), yet decoding the
encoding through get_option materializes bid_iv as 0 (third conjunct)
rather than leaving it absent as the original record has it (second
conjunct) - so decode(encode(record)) does not yield the record back and
an absent field does materialize as zero at read time. -/
theorem C3_roundtrip_counterexample :
    (encode sampleAbsent).lookup "biv" = Option.none ∧
    sampleAbsent.biv = Option.none ∧
    (get_option "BTC-29NOV24-100000-C" (encode sampleAbsent)).map
        OptionView.bid_iv = some 0 := by decide

/-- Claim C3 (amended): decoding the encoding of any quote record
succeeds and yields every present optional field's exact value, but each
absent optional field is materialized as the documented read-time default
0 (and the timestamp round-trips); round-trip equality therefore holds on
the present fields only, not on absence. -/
theorem C3_roundtrip_amended (sym : String) (r : QuoteRecord) :
    get_option sym (encode r) =
      some
        { symbol := sym, timestamp := r.ts,
          bid_iv := r.biv.getD 0, ask_iv := r.aiv.getD 0,
          last_price := r.lp.getD 0, mark_price := r.mp.getD 0,
          index_price := r.ip.getD 0, mark_iv := r.miv.getD 0,
          underlying_price := r.up.getD 0, open_interest := r.oi.getD 0,
          delta := r.d.getD 0, gamma := r.g.getD 0, vega := r.v.getD 0,
          theta := r.t.getD 0, volume_24h := r.v24.getD 0,
          turnover_24h := r.t24.getD 0 } := by
  have hdec := decodeCore_encode sym r
  have hne : (encode r).isEmpty = false := rfl
  simp [get_option, hne, hdec]

/-- Claim C4, counterexample: badHash stores unparseable text in the lp
field only, yet get_option returns None for the whole record, not absence
for that field alone; and in the multi-record scan, pairing one bad record
with one good one makes get_all_options return the empty list - the good
symbol's result is discarded, while the good record alone decodes to one
entry. -/
theorem C4_parse_failure_counterexample :
    get_option "BTC-X" badHash = Option.none ∧
    get_all_options [("option:GOOD", goodHash), ("option:BAD", badHash)] = [] ∧
    (get_all_options [("option:GOOD", goodHash)]).length = 1 := by decide

/-- Claim C4 (amended): a numeric parse failure never raises to the
caller, but its blast radius is the whole read, not the single field: when
the decode of a hash fails, get_option returns None for the entire record,
and when any entry of the scan loop fails to decode, get_all_options
returns the empty list, discarding every other symbol's result. -/
theorem C4_parse_failure_amended (sym : String) (h : Hash) (e : PyErr)
    (entries : List (String × Hash)) :
    (decodeCore sym h = Except.error e → get_option sym h = Option.none) ∧
    (scanLoopDecode entries = Except.error e → get_all_options entries = []) := by
  constructor
  · intro hx
    by_cases hemp : h.isEmpty
    · simp [get_option, hemp]
    · simp [get_option, hemp, hx]
  · intro hx
    simp [get_all_options, hx]

/-- Witness for C4_parse_failure_amended at the concrete bad store. -/
theorem C4_parse_failure_amended_witness :
    get_option "BTC-X" badHash = Option.none ∧
    get_all_options [("option:GOOD", goodHash), ("option:BAD", badHash)] = [] :=
  ⟨(C4_parse_failure_amended "BTC-X" badHash PyErr.valueError []).1 rfl,
   (C4_parse_failure_amended "BTC-X" badHash PyErr.valueError
      [("option:GOOD", goodHash), ("option:BAD", badHash)]).2 rfl⟩

/-- Claim C1: one flush tick on a nonempty queue of n pending items drains
exactly min(n, batch_size) items from the front in FIFO order - the
pipelined commands are, per drained item in queue order, one hset of its
encoded fields under option:symbol plus one 86400-second TTL refresh,
followed by the single stats update (message counter += batch length,
last_update timestamp, batch counter += 1) - and the queue keeps exactly
the n - min(n, batch_size) newest items in their original order. -/
theorem C1_flush_tick_drains_min_batch (queue : List BatchItem) (now : ℚ)
    (hne : queue ≠ []) :
    (flushTick queue now).1 =
      (queue.take (min queue.length batch_size)).flatMap itemCmds ++
        [Cmd.hincrby "stats" "messages" (min queue.length batch_size),
         Cmd.hsetField "stats" "last_update" now,
         Cmd.hincrby "stats" "batches" 1] ∧
    (flushTick queue now).2 = queue.drop (min queue.length batch_size) ∧
    (queue.take (min queue.length batch_size)).length =
      min queue.length batch_size ∧
    (flushTick queue now).2.length =
      queue.length - min queue.length batch_size ∧
    queue.take (min queue.length batch_size) ++ (flushTick queue now).2 =
      queue := by
  have hemp : queue.isEmpty = false := by
    cases queue with
    | nil => exact absurd rfl hne
    | cons a t => rfl
  refine ⟨?_, ?_, ?_, ?_, ?_⟩
  · simp [flushTick, hemp, List.length_take, Nat.min_comm]
  · simp [flushTick, hemp]
  · simp [List.length_take, Nat.min_comm, Nat.min_assoc, Nat.min_self]
  · simp [flushTick, hemp, List.length_drop]
  · simp [flushTick, hemp, List.take_append_drop]

/-- Witness for C1_flush_tick_drains_min_batch on a one-item queue. -/
theorem C1_flush_tick_drains_min_batch_witness :
    (flushTick [⟨"BTC-X", [("lp", WireVal.num 7)]⟩] 0).1 =
      (([⟨"BTC-X", [("lp", WireVal.num 7)]⟩] :
          List BatchItem).take (min 1 batch_size)).flatMap itemCmds ++
        [Cmd.hincrby "stats" "messages" (min 1 batch_size),
         Cmd.hsetField "stats" "last_update" 0,
         Cmd.hincrby "stats" "batches" 1] ∧
    (flushTick [⟨"BTC-X", [("lp", WireVal.num 7)]⟩] 0).2 =
      ([⟨"BTC-X", [("lp", WireVal.num 7)]⟩] :
          List BatchItem).drop (min 1 batch_size) ∧
    (([⟨"BTC-X", [("lp", WireVal.num 7)]⟩] :
          List BatchItem).take (min 1 batch_size)).length = min 1 batch_size ∧
    (flushTick [⟨"BTC-X", [("lp", WireVal.num 7)]⟩] 0).2.length =
      1 - min 1 batch_size ∧
    ([⟨"BTC-X", [("lp", WireVal.num 7)]⟩] :
          List BatchItem).take (min 1 batch_size) ++
        (flushTick [⟨"BTC-X", [("lp", WireVal.num 7)]⟩] 0).2 =
      [⟨"BTC-X", [("lp", WireVal.num 7)]⟩] :=
  C1_flush_tick_drains_min_batch [⟨"BTC-X", [("lp", WireVal.num 7)]⟩] 0
    (by decide)

/-- One enqueue keeps the queue within the deque bound. -/
theorem enqueue_length_le (q : List BatchItem) (x : BatchItem)
    (hq : q.length ≤ bufferCap) : (enqueue q x).length ≤ bufferCap := by
  unfold enqueue
  have hb : bufferCap = 10000 := rfl
  by_cases hc : q.length = bufferCap
  · simp only [hc, if_true]
    rw [List.length_append, List.length_tail]
    simp only [List.length_cons, List.length_nil]
    omega
  · simp only [hc, if_false]
    rw [List.length_append]
    simp only [List.length_cons, List.length_nil]
    omega

/-- Any enqueue sequence starting from the empty queue stays within the
bound. -/
theorem foldl_enqueue_length_le (xs : List BatchItem) (q : List BatchItem)
    (hq : q.length ≤ bufferCap) :
    (xs.foldl enqueue q).length ≤ bufferCap := by
  induction xs generalizing q with
  | nil => exact hq
  | cons x rest ih => exact ih (enqueue q x) (enqueue_length_le q x hq)

/-- Claim C2: the ingestion buffer never exceeds its fixed capacity of
10000 under any sequence of enqueues from empty; an enqueue at capacity
evicts exactly the single oldest (front) item and appends the newest at
the back; below capacity it appends without loss.  enqueue is a total
function: it never fails (blocking is outside this embedding). -/
theorem C2_buffer_bounded_evicts_oldest (xs : List BatchItem)
    (q : List BatchItem) (x : BatchItem) (hq : q.length ≤ bufferCap) :
    (xs.foldl enqueue []).length ≤ bufferCap ∧
    (enqueue q x).length ≤ bufferCap ∧
    (q.length = bufferCap → enqueue q x = q.tail ++ [x]) ∧
    (q.length < bufferCap → enqueue q x = q ++ [x]) := by
  refine ⟨foldl_enqueue_length_le xs [] (by simp [bufferCap]),
    enqueue_length_le q x hq, ?_, ?_⟩
  · intro hc
    simp [enqueue, hc]
  · intro hc
    have : q.length ≠ bufferCap := Nat.ne_of_lt hc
    simp [enqueue, this]

/-- Witness for C2_buffer_bounded_evicts_oldest at a full queue. -/
theorem C2_buffer_bounded_evicts_oldest_witness :
    (List.replicate bufferCap (⟨"A", []⟩ : BatchItem)).length ≤ bufferCap ∧
    ((List.replicate bufferCap (⟨"A", []⟩ : BatchItem)).length = bufferCap →
      enqueue (List.replicate bufferCap ⟨"A", []⟩) ⟨"B", []⟩ =
        (List.replicate bufferCap (⟨"A", []⟩ : BatchItem)).tail ++ [⟨"B", []⟩]) :=
  ⟨by simp, (C2_buffer_bounded_evicts_oldest []
      (List.replicate bufferCap ⟨"A", []⟩) ⟨"B", []⟩ (by simp)).2.2.1⟩

/-- Once the counter has reached ws_max_reconnect_attempts - 1 at loop
entry, no failure can schedule a reconnect any more: every increment lands
at or above the ceiling, so the loop always runs to completion (and the
counter is then reset). -/
theorem passGo_completed_of_ge (fail : ℕ → Bool) (chunks : List (List String))
    (idx count : ℕ) (h : ws_max_reconnect_attempts - 1 ≤ count) :
    (passGo fail chunks idx count).1 = PassResult.completed := by
  induction chunks generalizing idx count with
  | nil => rfl
  | cons c rest ih =>
    rw [passGo]
    by_cases hf : fail idx = true
    · have hge : ¬ count + 1 < ws_max_reconnect_attempts := by
        simp [ws_max_reconnect_attempts] at h ⊢
        omega
      simp only [hf, if_true, hge, if_false]
      exact ih (idx + 1) (count + 1) (by omega)
    · simp only [eq_false_of_ne_true hf, if_false]
      exact ih (idx + 1) count h

/-- With no failing chunk the loop subscribes every chunk in order, pacing
after each, and completes. -/
theorem passGo_no_failure (fail : ℕ → Bool) (chunks : List (List String))
    (idx count : ℕ) (h : ∀ i, fail i = false) :
    passGo fail chunks idx count =
      (PassResult.completed,
       chunks.flatMap fun c => [SubAction.subscribeAttempt c, SubAction.pace]) := by
  induction chunks generalizing idx count with
  | nil => rfl
  | cons c rest ih =>
    rw [passGo]
    simp only [h idx, ih (idx + 1) count, List.flatMap_cons]
    rfl

theorem attemptedSymbols_cons_attempt (c : List String) (acts : List SubAction) :
    attemptedSymbols (SubAction.subscribeAttempt c :: acts) =
      c ++ attemptedSymbols acts := rfl

theorem attemptedSymbols_cons_other (a : SubAction) (acts : List SubAction)
    (h : ∀ c, a ≠ SubAction.subscribeAttempt c) :
    attemptedSymbols (a :: acts) = attemptedSymbols acts := by
  cases a with
  | subscribeAttempt c => exact absurd rfl (h c)
  | connectWs => rfl
  | pace => rfl
  | sleepRetry => rfl
  | wsExit => rfl
  | backoff d => rfl

/-- The subscribe attempts of a failure-free pass cover the chunks
exactly. -/
theorem attemptedSymbols_pass (chunks : List (List String)) :
    attemptedSymbols
        (chunks.flatMap fun c => [SubAction.subscribeAttempt c, SubAction.pace]) =
      chunks.flatten := by
  induction chunks with
  | nil => rfl
  | cons c rest ih =>
    rw [List.flatMap_cons, List.flatten_cons]
    rw [show ([SubAction.subscribeAttempt c, SubAction.pace] : List SubAction) ++
        (rest.flatMap fun x => [SubAction.subscribeAttempt x, SubAction.pace]) =
      SubAction.subscribeAttempt c :: SubAction.pace ::
        (rest.flatMap fun x => [SubAction.subscribeAttempt x, SubAction.pace]) from rfl]
    rw [attemptedSymbols_cons_attempt,
      attemptedSymbols_cons_other SubAction.pace _ (by intro c hx; cases hx), ih]

/-- The Python slice loop reassembles to the original list: concatenating
the chunks of bounded size gives back every symbol in order. -/
theorem chunksOf_flatten (n : ℕ) (hn : 0 < n) (l : List α) :
    (chunksOf n l).flatten = l := by
  have H : ∀ len : ℕ, ∀ l : List α, l.length = len → (chunksOf n l).flatten = l := by
    intro len
    induction len using Nat.strong_induction_on with
    | _ len ih =>
      intro l hl
      rw [chunksOf]
      by_cases he : l.isEmpty
      · rw [if_pos (Or.inl he)]
        rw [List.isEmpty_iff] at he
        simp [he]
      · have hcond : ¬ (l.isEmpty = true ∨ n = 0) := by
          rintro (hx | hx)
          · exact he hx
          · omega
        rw [if_neg hcond, List.flatten_cons]
        have hpos : 0 < l.length := by
          cases l with
          | nil => simp at he
          | cons a t => simp
        have hlen : (l.drop n).length < len := by
          rw [List.length_drop]
          omega
        rw [ih (l.drop n).length (by omega) (l.drop n) rfl,
          List.take_append_drop]
  exact H l.length l rfl

/-- When the chunk loop completes, subscribe_symbols resets the counter to
0 and the emitted actions are the WebSocket construction followed by the
loop's own actions. -/
theorem subscribeRun_completed (fails : ℕ → ℕ → Bool) (symbols : List String)
    (pass count : ℕ)
    (h : (passGo (fails pass) (chunksOf 100 symbols) 0 count).1 =
      PassResult.completed) :
    subscribeRun fails symbols pass count =
      (0, SubAction.connectWs ::
        (passGo (fails pass) (chunksOf 100 symbols) 0 count).2) := by
  rw [subscribeRun]
  split
  · rfl
  · rename_i cnt hres
    rw [h] at hres
    cases hres

/-- Every run of subscribe_symbols constructs a WebSocket: a connect
attempt is always among its actions. -/
theorem subscribeRun_connectWs (fails : ℕ → ℕ → Bool) (symbols : List String)
    (pass count : ℕ) :
    SubAction.connectWs ∈ (subscribeRun fails symbols pass count).2 := by
  rw [subscribeRun]
  split
  · exact List.mem_cons_self _ _
  · exact List.mem_cons_self _ _

/-- Claim C5, counterexample: take the tracker state with reconnect
counter 11 - beyond the ceiling of 10 - and a WebSocket that reports
disconnected.  The liveness loop of track still invokes
reconnect_websocket, which constructs a new WebSocket connection and
issues a fresh subscribe call for the active symbols: the code has no
Terminated state, and both a connect attempt and a subscribe attempt are
made after the ceiling is exceeded, contradicting the claim that no
further connect or subscribe attempt ever happens. -/
theorem C5_terminated_counterexample :
    SubAction.connectWs ∈
      (healthCheck (fun _ _ => false) ["BTC-X"] 11 true false).2 ∧
    SubAction.subscribeAttempt ["BTC-X"] ∈
      (healthCheck (fun _ _ => false) ["BTC-X"] 11 true false).2 := by
  have hchunks : chunksOf 100 ["BTC-X"] = [["BTC-X"]] := by
    rw [chunksOf]
    norm_num
    rw [chunksOf]
    simp
  have hpass : passGo (fun _ => false) (chunksOf 100 ["BTC-X"]) 0 11 =
      (PassResult.completed,
       [SubAction.subscribeAttempt ["BTC-X"], SubAction.pace]) := by
    rw [hchunks]
    rfl
  have hrun := subscribeRun_completed (fun _ _ => false) ["BTC-X"] 0 11
    (by rw [hpass])
  constructor
  · simp [healthCheck, reconnectWebsocket, hrun, hpass]
  · simp [healthCheck, reconnectWebsocket, hrun, hpass]

/-- Claim C5 (amended): on exceeding the retry ceiling the code does not
terminate.  Once the counter is at ws_max_reconnect_attempts - 1 or more,
a failing subscribe pass stops scheduling reconnects from within
subscribe_symbols (failing chunks are skipped) and the run ends with the
counter reset to 0; and the liveness loop keeps reacting to any disconnect
by reconnecting - a connect attempt occurs no matter how large the counter
is, so the manager re-enters the connect/subscribe cycle instead of
reaching a terminal state. -/
theorem C5_retry_ceiling_amended (fails : ℕ → ℕ → Bool)
    (symbols : List String) (count : ℕ)
    (h : ws_max_reconnect_attempts - 1 ≤ count) :
    (subscribeRun fails symbols 0 count).1 = 0 ∧
    SubAction.connectWs ∈ (healthCheck fails symbols count true false).2 := by
  constructor
  · rw [subscribeRun_completed fails symbols 0 count
      (passGo_completed_of_ge (fails 0) (chunksOf 100 symbols) 0 count h)]
  · simp only [healthCheck, reconnectWebsocket]
    simp only [Bool.and_self, Bool.not_false, if_true]
    exact List.mem_cons_of_mem _ (List.mem_cons_of_mem _
      (subscribeRun_connectWs fails symbols 0 count))

/-- Witness for C5_retry_ceiling_amended at counter 9 with every
subscribe call failing. -/
theorem C5_retry_ceiling_amended_witness :
    (subscribeRun (fun _ _ => true) ["BTC-X"] 0 9).1 = 0 ∧
    SubAction.connectWs ∈
      (healthCheck (fun _ _ => true) ["BTC-X"] 9 true false).2 :=
  C5_retry_ceiling_amended (fun _ _ => true) ["BTC-X"] 9 (by decide)

/-- Claim C6: after a disconnect, a reconnect in which no subscribe call
fails re-subscribes exactly the full previously-active symbol list (the
tracker passes list(self.active_symbols) to subscribe_symbols, which
chunks it by 100 and subscribes every chunk), not only a failed chunk. -/
theorem C6_reconnect_full_resubscribe (fails : ℕ → ℕ → Bool)
    (active : List String) (count : ℕ) (h : ∀ p i, fails p i = false) :
    attemptedSymbols (reconnectWebsocket fails active count).2 = active := by
  have hpass := passGo_no_failure (fails 0) (chunksOf 100 active) 0 count
    (fun i => h 0 i)
  have hrun := subscribeRun_completed fails active 0 count (by rw [hpass])
  simp only [reconnectWebsocket, hrun, hpass]
  rw [attemptedSymbols_cons_other SubAction.wsExit _ (by intro c hx; cases hx),
    attemptedSymbols_cons_other (SubAction.backoff (min (10 * 2 ^ count) 60)) _
      (by intro c hx; cases hx),
    attemptedSymbols_cons_other SubAction.connectWs _ (by intro c hx; cases hx),
    attemptedSymbols_pass]
  exact chunksOf_flatten 100 (by omega) active

/-- Witness for C6_reconnect_full_resubscribe on a two-symbol active set. -/
theorem C6_reconnect_full_resubscribe_witness :
    attemptedSymbols
        (reconnectWebsocket (fun _ _ => false) ["BTC-A", "BTC-B"] 0).2 =
      ["BTC-A", "BTC-B"] :=
  C6_reconnect_full_resubscribe (fun _ _ => false) ["BTC-A", "BTC-B"] 0
    (fun _ _ => rfl)

/-- Claim C7 (the code contradicts its own log line "Processing N
remaining items..."): cleanup returns the queue unchanged - no remaining
item is drained or written - and every store command it issues is a
single-field stats write (shutdown_time, total_messages, avg_msg_rate);
no option:symbol hash-set or TTL refresh appears.  The WebSocket, when
present, is closed.  Evaluating the model at any nonempty queue exhibits
the divergence from the claimed final drain-and-write. -/
theorem C7_cleanup_writes_no_queued_item (queue : List BatchItem)
    (messages : ℕ) (now runtime : ℚ) :
    (cleanup queue messages now runtime true).2.1 = queue ∧
    ((cleanup queue messages now runtime true).1.all isStatsFieldWrite)
      = true ∧
    ((cleanup queue messages now runtime true).1.countP isOptionKeyWrite)
      = 0 ∧
    ((cleanup queue messages now runtime true).1.map
        (fun c => match c with
          | Cmd.hsetField _ f _ => f
          | _ => "")) =
      ["shutdown_time", "total_messages", "avg_msg_rate"] ∧
    (cleanup queue messages now runtime true).2.2 = true := by
  refine ⟨rfl, ?_, ?_, rfl, rfl⟩
  · simp [cleanup, isStatsFieldWrite]
  · simp [cleanup, isOptionKeyWrite, List.countP_cons]

/-- Claim C8, counterexample: get_all_options opens with a single
unbounded KEYS enumeration of the full option keyspace, and get_summary
issues three KEYS enumerations - these Query Layer reads are not
cursor-based scans, contradicting the claim that no read operation ever
performs a single unbounded full-keyspace enumeration. -/
theorem C8_keys_scan_counterexample :
    (get_all_options_ops Option.none ["option:A"]).head? =
      some (ReadOp.keysEnum "option:*") ∧
    ReadOp.keysEnum "option:BTC-*" ∈ get_summary_ops := by decide

/-- Claim C8 (amended): only the signal scanner honours the cursor
protocol - scan_high_iv_opportunities never issues a KEYS enumeration,
whatever reply pages the store produces - while the Query Layer's
get_all_options always begins with one unbounded KEYS enumeration and
get_summary issues three. -/
theorem C8_scan_protocol_amended (pages : List (ℕ × List String)) (c : ℕ)
    (asset : Option String) (keysReply : List String) :
    ((scan_high_iv_ops pages c).all fun op => !(isKeysEnum op)) = true ∧
    ((get_all_options_ops asset keysReply).head?.any isKeysEnum) = true ∧
    get_summary_ops.countP isKeysEnum = 3 := by
  refine ⟨?_, ?_, by decide⟩
  · induction pages generalizing c with
    | nil => rfl
    | cons p rest ih =>
      obtain ⟨next, keys⟩ := p
      have hmap : ((keys.map fun k => ReadOp.hmgetOp k ["miv", "lp", "v24"]).all
          fun op => !(isKeysEnum op)) = true := by
        rw [List.all_eq_true]
        intro op hop
        obtain ⟨k, hk, rfl⟩ := List.mem_map.mp hop
        rfl
      by_cases hnext : next = 0
      · simp [scan_high_iv_ops, List.all_append, hnext, hmap, isKeysEnum]
      · simp only [scan_high_iv_ops, List.all_cons, List.all_append, hnext,
          if_false, hmap, Bool.and_true, Bool.true_and]
        simp only [isKeysEnum, Bool.not_false, Bool.true_and]
        exact ih next
  · cases asset <;> rfl

/-- Claim C9, counterexample: a cache file whose expires_at equals the
current time - so expiry is not in the future - is still served as a
cache hit: load_cache only misses when now is strictly past expires_at
(line 113 uses a strict comparison in the wrong direction for the
claim). -/
theorem C9_cache_expiry_counterexample :
    load_cache 100 (CacheFile.found 0 100 1 ["BTC-X"]) = some ["BTC-X"] ∧
    ¬ ((100 : ℤ) < 100) := by decide

/-- Claim C9 (amended): the cache is treated as valid while now is less
than or equal to expires_at: load_cache misses exactly when now is
strictly greater than expires_at, and a missing or unreadable cache file
is a miss rather than an error. -/
theorem C9_cache_expiry_amended (now u e : ℤ) (c : ℕ) (syms : List String) :
    load_cache now CacheFile.missing = Option.none ∧
    load_cache now CacheFile.unreadable = Option.none ∧
    (e < now → load_cache now (CacheFile.found u e c syms) = Option.none) ∧
    (now ≤ e → load_cache now (CacheFile.found u e c syms) = some syms) := by
  refine ⟨rfl, rfl, ?_, ?_⟩
  · intro hx
    simp [load_cache, hx]
  · intro hx
    simp only [load_cache]
    rw [if_neg (by omega)]

/-- Witness for C9_cache_expiry_amended one second after and one second
before expiry. -/
theorem C9_cache_expiry_amended_witness :
    load_cache 2 (CacheFile.found 0 1 1 ["X"]) = Option.none ∧
    load_cache 0 (CacheFile.found 0 1 1 ["X"]) = some ["X"] :=
  ⟨(C9_cache_expiry_amended 2 0 1 1 ["X"]).2.2.1 (by decide),
   (C9_cache_expiry_amended 0 0 1 1 ["X"]).2.2.2 (by decide)⟩

/-- Claim C10: the conversion helper to_float is a total function - every
exception float() can raise is caught - returning None exactly for None,
the empty string and unparseable values, the parsed number otherwise; in
particular the number 0 converts to 0, not None. -/
theorem C10_to_float_total (v : PyVal) :
    (v = PyVal.none → to_float v = Option.none) ∧
    (v = PyVal.str "" → to_float v = Option.none) ∧
    (∀ e, pyFloat v = Except.error e → to_float v = Option.none) ∧
    (∀ q, pyFloat v = Except.ok q → v ≠ PyVal.str "" → to_float v = some q) ∧
    to_float (PyVal.num 0) = some 0 := by
  refine ⟨?_, ?_, ?_, ?_, rfl⟩
  · intro hv
    simp [to_float, hv]
  · intro hv
    simp [to_float, hv, eqEmptyStr]
  · intro e he
    unfold to_float
    by_cases hc : v = PyVal.none ∨ eqEmptyStr v
    · simp [hc]
    · simp [hc, he]
  · intro q hq hne
    have h1 : v ≠ PyVal.none := by
      intro hx
      rw [hx] at hq
      cases hq
    have h2 : eqEmptyStr v = false := by
      cases v with
      | none => rfl
      | num q2 => rfl
      | other => rfl
      | str s =>
        have hs : s ≠ "" := fun hx => hne (by rw [hx])
        simp [eqEmptyStr, hs]
    simp [to_float, h1, h2, hq]

/-- Witness for C10_to_float_total on an unparseable string and a parsed
number. -/
theorem C10_to_float_total_witness :
    to_float (PyVal.str "xyz") = Option.none ∧
    to_float (PyVal.str "65000") = some 65000 ∧
    to_float (PyVal.num 0) = some 0 :=
  ⟨(C10_to_float_total (PyVal.str "xyz")).2.2.1 PyErr.valueError rfl,
   (C10_to_float_total (PyVal.str "65000")).2.2.2.1 65000 rfl (by decide),
   (C10_to_float_total PyVal.other).2.2.2.2⟩
